import Mathlib

/-!
Verification of the streaming tile engine of `src/terrain_management/high_res_dem_gen.py`
(class `HighResDEMGen` and its helpers) against its natural-language specification.

The embedding is shallow:
* Python floats are modelled as rationals (`ℚ`); `int(...)` is truncation toward zero
  (`pyTrunc`), `//` is flooring division.
* Python `dict`s are association lists with insert-or-replace semantics (`dictInsert`),
  lookup returning the first matching entry (`dictLookup`); a failed lookup (`KeyError`)
  is modelled by propagating `Option.none`.
* Python dict *objects* held as values of `block_grid_tracker` are mutable and shared by
  reference during `shift_block_grid`.  Object identity is modelled with an explicit
  heap `ℕ → BlockState` plus an allocation counter; trackers store heap references.
* numpy arrays are total functions `ℕ → ℕ → ℚ` read on `[0, S)²`; numpy slice-bound
  normalisation (negative indices wrap once by `+ S`, then clamp to `[0, S]`) is `npBound`.
-/

/-- Python `int(q)` on a real value: truncation toward zero. -/
def pyTrunc (q : ℚ) : ℤ := if q < 0 then -⌊-q⌋ else ⌊q⌋

/-- Lookup in a Python dict modelled as an association list: first matching entry. -/
def dictLookup {α β : Type} [DecidableEq α] : List (α × β) → α → Option β
  | [], _ => none
  | kv :: rest, k => if k = kv.1 then some kv.2 else dictLookup rest k

/-- Python dict assignment `d[k] = v`: replace the entry if the key is present,
otherwise append a new entry (Python dicts preserve insertion order). -/
def dictInsert {α β : Type} [DecidableEq α] : List (α × β) → α → β → List (α × β)
  | [], k, v => [(k, v)]
  | kv :: rest, k, v => if k = kv.1 then (k, v) :: rest else kv :: dictInsert rest k v

@[simp] theorem dictLookup_nil {α β : Type} [DecidableEq α] (k : α) :
    dictLookup ([] : List (α × β)) k = none := rfl

theorem dictLookup_dictInsert {α β : Type} [DecidableEq α]
    (d : List (α × β)) (k k' : α) (v : β) :
    dictLookup (dictInsert d k v) k' = if k' = k then some v else dictLookup d k' := by
  induction d with
  | nil => by_cases h : k' = k <;> simp [dictInsert, dictLookup, h]
  | cons kv rest ih =>
    by_cases hk : k = kv.1
    · by_cases h : k' = k <;> simp [dictInsert, dictLookup, hk, h] <;> simp [← hk, h]
    · by_cases h' : k' = kv.1
      · have h2 : ¬ k' = k := fun he => hk (he ▸ h')
        have h3 : ¬ kv.1 = k := fun he => hk he.symm
        simp [dictInsert, dictLookup, hk, h', h2, h3]
      · simp [dictInsert, dictLookup, hk, h', ih]

theorem dictInsert_length {α β : Type} [DecidableEq α] (d : List (α × β)) (k : α) (v : β) :
    (dictInsert d k v).length =
      if (dictLookup d k).isSome then d.length else d.length + 1 := by
  induction d with
  | nil => simp [dictInsert, dictLookup]
  | cons kv rest ih =>
    by_cases hk : k = kv.1 <;> simp [dictInsert, dictLookup, hk, ih] <;> split <;> simp

theorem dictLookup_mem {α β : Type} [DecidableEq α] {d : List (α × β)} {k : α} {v : β}
    (h : dictLookup d k = some v) : (k, v) ∈ d := by
  induction d with
  | nil => simp [dictLookup] at h
  | cons kv rest ih =>
    by_cases hk : k = kv.1
    · simp only [dictLookup, if_pos hk, Option.some.injEq] at h
      have : (k, v) = kv := by
        rw [Prod.ext_iff]
        exact ⟨hk, h.symm⟩
      rw [this]
      exact List.mem_cons_self _ _
    · simp only [dictLookup, if_neg hk] at h
      exact List.mem_cons_of_mem _ (ih h)

theorem dictInsert_mem {α β : Type} [DecidableEq α] {d : List (α × β)} {k : α} {v : β}
    {kv : α × β} (h : kv ∈ dictInsert d k v) : kv = (k, v) ∨ kv ∈ d := by
  induction d with
  | nil => simpa [dictInsert] using h
  | cons kv' rest ih =>
    by_cases hk : k = kv'.1
    · simp only [dictInsert, if_pos hk, List.mem_cons] at h
      rcases h with h | h
      · exact Or.inl h
      · exact Or.inr (List.mem_cons_of_mem _ h)
    · simp only [dictInsert, if_neg hk, List.mem_cons] at h
      rcases h with h | h
      · exact Or.inr (by simp [h])
      · rcases ih h with h' | h'
        · exact Or.inl h'
        · exact Or.inr (List.mem_cons_of_mem _ h')

/-- The per-tile state dict created in `build_block_grid` / `shift_block_grid`:
`{"has_crater_metadata": _, "has_crater_data": _, "has_terrain_data": _, "is_padding": _}`. -/
structure BlockState where
  has_crater_metadata : Bool
  has_crater_data : Bool
  has_terrain_data : Bool
  is_padding : Bool
deriving DecidableEq

/-- The all-`False` state inserted for a fresh block. -/
def freshState : BlockState := ⟨false, false, false, false⟩

/-- Heap update: mutate the state object at reference `r`. -/
def hup (h : ℕ → BlockState) (r : ℕ) (s : BlockState) : ℕ → BlockState :=
  fun r' => if r' = r then s else h r'

@[simp] theorem hup_same (h : ℕ → BlockState) (r : ℕ) (s : BlockState) : hup h r s r = s := by
  simp [hup]

theorem hup_other (h : ℕ → BlockState) (r : ℕ) (s : BlockState) {r' : ℕ} (hne : r' ≠ r) :
    hup h r s r' = h r' := by
  simp [hup, hne]

/-- The settings of `HighResDEMGen` used by the block-grid and DEM bookkeeping
(`HighResDEMGenCfg`, restricted to the fields the verified code paths read). -/
structure Params where
  num_blocks : ℕ
  block_size : ℚ
  resolution : ℚ
  source_resolution : ℚ
  interpolation_padding : ℤ

/-- The mutable bookkeeping state of `HighResDEMGen`:
`block_grid_tracker` maps a window-local block key `(x_c, y_c)` (world units) to the heap
reference of its state dict; `map_grid_block2coords` maps a world block anchor `(x_i, y_i)`
to its local key. -/
structure GridSys where
  heap : ℕ → BlockState
  fresh : ℕ
  block_grid_tracker : List ((ℚ × ℚ) × ℕ)
  map_grid_block2coords : List ((ℚ × ℚ) × (ℚ × ℚ))

/-- Python `range(-num_blocks - 1, num_blocks + 2)`: the local grid indices, ascending. -/
def gridRange (nb : ℕ) : List ℤ :=
  (List.range (2 * nb + 3)).map (fun (k : ℕ) => (k : ℤ) - ((nb : ℤ) + 1))

/-- The nested `for x: for y:` iteration order of both grid loops. -/
def gridPairs (nb : ℕ) : List (ℤ × ℤ) :=
  (gridRange nb).flatMap (fun x => (gridRange nb).map (fun y => (x, y)))

/-- The `is_padding` condition of the grid loops:
`x == -num_blocks - 1 or x == num_blocks + 1`, elif the same for `y`, else `False`. -/
def isPaddingIdx (nb : ℕ) (x y : ℤ) : Bool :=
  if x = -((nb : ℤ) + 1) ∨ x = (nb : ℤ) + 1 then true
  else if y = -((nb : ℤ) + 1) ∨ y = (nb : ℤ) + 1 then true
  else false

/-- One iteration of the nested loop of `HighResDEMGen.build_block_grid`. -/
def buildStep (p : Params) (c : ℚ × ℚ) (acc : GridSys) (xy : ℤ × ℤ) : GridSys :=
  let x_c : ℚ := xy.1 * p.block_size
  let y_c : ℚ := xy.2 * p.block_size
  let x_i : ℚ := x_c + c.1
  let y_i : ℚ := y_c + c.2
  -- `self.block_grid_tracker[(x_c, y_c)] = copy.copy(state)`: a fresh state object
  let r := acc.fresh
  let heap1 := hup acc.heap r freshState
  -- the if/elif/else writing `is_padding` into that object
  let heap2 := hup heap1 r { heap1 r with is_padding := isPaddingIdx p.num_blocks xy.1 xy.2 }
  { heap := heap2
    fresh := r + 1
    block_grid_tracker := dictInsert acc.block_grid_tracker (x_c, y_c) r
    map_grid_block2coords := dictInsert acc.map_grid_block2coords (x_i, y_i) (x_c, y_c) }

/-- `HighResDEMGen.build_block_grid`, with `c = self.current_block_coord`. -/
def build_block_grid (p : Params) (c : ℚ × ℚ) : GridSys :=
  (gridPairs p.num_blocks).foldl (buildStep p c)
    { heap := fun _ => freshState, fresh := 0
      block_grid_tracker := [], map_grid_block2coords := [] }

/-- Loop accumulator of `shift_block_grid`: the two new mappings being built, plus the
heap and allocation counter (the old mappings of `g` are read-only during the loop). -/
structure ShiftAcc where
  newTracker : List ((ℚ × ℚ) × ℕ)
  newMap : List ((ℚ × ℚ) × (ℚ × ℚ))
  heap : ℕ → BlockState
  fresh : ℕ

/-- One iteration of the nested loop of `HighResDEMGen.shift_block_grid` at local index
`(x, y)`, shifting to the new block-aligned center `c`.  Mirrors the source faithfully,
including the bug of writing `is_padding` through `self.block_grid_tracker` (the *old*
tracker's state objects) instead of `new_block_grid_tracker`. -/
def shiftStep (p : Params) (g : GridSys) (c : ℚ × ℚ) (acc : ShiftAcc) (xy : ℤ × ℤ) :
    Option ShiftAcc :=
  let x_c : ℚ := xy.1 * p.block_size
  let y_c : ℚ := xy.2 * p.block_size
  let x_i : ℚ := x_c + c.1
  let y_i : ℚ := y_c + c.2
  let step1 : Option ShiftAcc :=
    match dictLookup g.map_grid_block2coords (x_i, y_i) with
    | none =>
        -- new block: fresh all-False state object
        some { acc with
                newTracker := dictInsert acc.newTracker (x_c, y_c) acc.fresh
                heap := hup acc.heap acc.fresh freshState
                fresh := acc.fresh + 1 }
    | some L2 =>
        -- carried block: transfer the old state object by reference
        match dictLookup g.block_grid_tracker L2 with
        | none => none
        | some r => some { acc with newTracker := dictInsert acc.newTracker (x_c, y_c) r }
  match step1 with
  | none => none
  | some acc1 =>
    let acc2 := { acc1 with newMap := dictInsert acc1.newMap (x_i, y_i) (x_c, y_c) }
    -- BUG in source: `self.block_grid_tracker[(x_c, y_c)]["is_padding"] = ...` mutates the
    -- OLD tracker's state object at local key (x_c, y_c), not the new tracker's entry.
    match dictLookup g.block_grid_tracker (x_c, y_c) with
    | none => none
    | some rOld =>
        some { acc2 with
                heap := hup acc2.heap rOld
                  { acc2.heap rOld with is_padding := isPaddingIdx p.num_blocks xy.1 xy.2 } }

/-- The nested loop of `shift_block_grid`, aborting on `KeyError`. -/
def shiftLoop (p : Params) (g : GridSys) (c : ℚ × ℚ) :
    List (ℤ × ℤ) → ShiftAcc → Option ShiftAcc
  | [], acc => some acc
  | xy :: rest, acc =>
    match shiftStep p g c acc xy with
    | none => none
    | some acc' => shiftLoop p g c rest acc'

/-- `HighResDEMGen.shift_block_grid(coordinates)`: build the new mappings, then overwrite
the old state with the new state. -/
def shift_block_grid (p : Params) (g : GridSys) (c : ℚ × ℚ) : Option GridSys :=
  match shiftLoop p g c (gridPairs p.num_blocks)
      { newTracker := [], newMap := [], heap := g.heap, fresh := g.fresh } with
  | none => none
  | some acc =>
      some { heap := acc.heap, fresh := acc.fresh
             block_grid_tracker := acc.newTracker
             map_grid_block2coords := acc.newMap }

/-- Read the `is_padding` flag of the tracked tile at local key `k`. -/
def padAt (g : GridSys) (k : ℚ × ℚ) : Option Bool :=
  match dictLookup g.block_grid_tracker k with
  | none => none
  | some r => some ((g.heap r).is_padding)

/-! ### The raster buffer and `shift_dem` -/

/-- numpy slice-bound normalisation for an axis of length `S`: a negative bound is
shifted once by `+ S`, then the result is clamped to `[0, S]`. -/
def npBound (S : ℕ) (i : ℤ) : ℕ :=
  (min ((if i < 0 then i + S else i).toNat) S)

/-- The four slice bounds `(min_s, max_s, min_t, max_t)` that `shift_dem` computes for one
axis of shift `d` (identical code for x and y in the source). -/
structure SliceBounds where
  min_s : ℤ
  max_s : ℤ
  min_t : ℤ
  max_t : ℤ

/-- Per-axis bound computation of `shift_dem`. -/
def axisBounds (S : ℕ) (d : ℤ) : SliceBounds :=
  if d > 0 then ⟨0, -d, d, (S : ℤ)⟩
  else if d = 0 then ⟨0, (S : ℤ), 0, (S : ℤ)⟩
  else ⟨-d, (S : ℤ), 0, d⟩

/-- The numpy assignment
`high_res_dem[x_min_t:x_max_t, y_min_t:y_max_t] = high_res_dem[x_min_s:x_max_s, ...]`.
The source and target slices have equal lengths in every branch of `shift_dem`
(`max_s`/`max_s` fix the source length), and numpy copies through a temporary when the
regions overlap, so the result reads the *old* array on the source region. -/
def copyRegion (S : ℕ) (dem : ℕ → ℕ → ℚ) (xb yb : SliceBounds) : ℕ → ℕ → ℚ :=
  fun i j =>
    if npBound S xb.min_t ≤ i ∧ i < npBound S xb.max_t ∧
        npBound S yb.min_t ≤ j ∧ j < npBound S yb.max_t then
      dem (npBound S xb.min_s + (i - npBound S xb.min_t))
          (npBound S yb.min_s + (j - npBound S yb.min_t))
    else dem i j

/-- The row zero-fill of `shift_dem`:
`if x_shift < 0: dem[x_max_t:, :] = 0  elif x_shift > 0: dem[:x_min_t, :] = 0`. -/
def zeroRows (S : ℕ) (f : ℕ → ℕ → ℚ) (d : ℤ) (xb : SliceBounds) : ℕ → ℕ → ℚ :=
  fun i j =>
    if d < 0 then (if npBound S xb.max_t ≤ i then 0 else f i j)
    else if d > 0 then (if i < npBound S xb.min_t then 0 else f i j)
    else f i j

/-- The column zero-fill of `shift_dem` (same for the y axis). -/
def zeroCols (S : ℕ) (f : ℕ → ℕ → ℚ) (d : ℤ) (yb : SliceBounds) : ℕ → ℕ → ℚ :=
  fun i j =>
    if d < 0 then (if npBound S yb.max_t ≤ j then 0 else f i j)
    else if d > 0 then (if j < npBound S yb.min_t then 0 else f i j)
    else f i j

/-- `HighResDEMGen.shift_dem(pixel_shift)` on the square `S × S` buffer
`self.high_res_dem`.  Note the source guard compares the *signed* shift with `>`
(`x_shift > shape[0] or y_shift > shape[1]`), not `|shift| >= S`. -/
def shift_dem (S : ℕ) (dem : ℕ → ℕ → ℚ) (x_shift y_shift : ℤ) : ℕ → ℕ → ℚ :=
  if x_shift > (S : ℤ) ∨ y_shift > (S : ℤ) then fun _ _ => 0
  else
    let xb := axisBounds S x_shift
    let yb := axisBounds S y_shift
    zeroCols S (zeroRows S (copyRegion S dem xb yb) x_shift xb) y_shift yb

/-! ### Crater metadata flags (`generate_craters_metadata`) -/

/-- The flag-update loop of `HighResDEMGen.generate_craters_metadata`.  The existence
predicate `ex` is `self.crater_db.check_block_exists` *after*
`sample_craters_by_region` has run; the crater database is an external collaborator
(spec section 6), so it enters as a parameter.  The loop iterates over the entries of
`map_grid_block2coords` and mutates only the heap. -/
def genMetaStep (ex : ℚ × ℚ → Bool) (g : GridSys) (heap : ℕ → BlockState)
    (kv : (ℚ × ℚ) × (ℚ × ℚ)) : Option (ℕ → BlockState) :=
  match dictLookup g.map_grid_block2coords kv.1 with
  | none => none
  | some lc =>
    match dictLookup g.block_grid_tracker lc with
    | none => none
    | some r => some (hup heap r { heap r with has_crater_metadata := ex kv.1 })

/-- Loop of `generate_craters_metadata` over the keys of `map_grid_block2coords`. -/
def genMetaLoop (ex : ℚ × ℚ → Bool) (g : GridSys) :
    List ((ℚ × ℚ) × (ℚ × ℚ)) → (ℕ → BlockState) → Option (ℕ → BlockState)
  | [], heap => some heap
  | kv :: rest, heap =>
    match genMetaStep ex g heap kv with
    | none => none
    | some heap' => genMetaLoop ex g rest heap'

/-- `HighResDEMGen.generate_craters_metadata` (flag-update part). -/
def generate_craters_metadata (ex : ℚ × ℚ → Bool) (g : GridSys) : Option GridSys :=
  match genMetaLoop ex g g.map_grid_block2coords g.heap with
  | none => none
  | some heap' => some { g with heap := heap' }

/-! ### `collect_terrain_data` -/

/-- The raster write-in of `collect_terrain_data`: add the tile raster `data` into
`high_res_dem[x_c/res + offset : (x_c + block_size)/res + offset, ...]` where
`offset = int((num_blocks + 1) * block_size / resolution)`. -/
def dem_region_add (p : Params) (raster : ℕ → ℕ → ℚ) (lc : ℚ × ℚ)
    (data : ℕ → ℕ → ℚ) : ℕ → ℕ → ℚ :=
  let offset : ℤ := pyTrunc (((p.num_blocks : ℚ) + 1) * p.block_size / p.resolution)
  let x0 : ℤ := pyTrunc (lc.1 / p.resolution) + offset
  let x1 : ℤ := pyTrunc ((lc.1 + p.block_size) / p.resolution) + offset
  let y0 : ℤ := pyTrunc (lc.2 / p.resolution) + offset
  let y1 : ℤ := pyTrunc ((lc.2 + p.block_size) / p.resolution) + offset
  fun i j =>
    if x0 ≤ (i : ℤ) ∧ (i : ℤ) < x1 ∧ y0 ≤ (j : ℤ) ∧ (j : ℤ) < y1 then
      raster i j + data ((i - x0).toNat) ((j - y0).toNat)
    else raster i j

/-- One iteration of the crater-result loop of `collect_terrain_data`:
`x_c, y_c = self.map_grid_block2coords[(x_i, y_i)]` (KeyError when the anchor is no
longer tracked), raster `+=`, then set `has_crater_data`. -/
def collect_crater_step (p : Params) (st : GridSys × (ℕ → ℕ → ℚ))
    (res : (ℚ × ℚ) × (ℕ → ℕ → ℚ)) : Option (GridSys × (ℕ → ℕ → ℚ)) :=
  match dictLookup st.1.map_grid_block2coords res.1 with
  | none => none
  | some lc =>
    match dictLookup st.1.block_grid_tracker lc with
    | none => none
    | some r =>
      some ({ st.1 with heap := hup st.1.heap r { st.1.heap r with has_crater_data := true } },
            dem_region_add p st.2 lc res.2)

/-- One iteration of the terrain-result loop (sets `has_terrain_data`). -/
def collect_terrain_step (p : Params) (st : GridSys × (ℕ → ℕ → ℚ))
    (res : (ℚ × ℚ) × (ℕ → ℕ → ℚ)) : Option (GridSys × (ℕ → ℕ → ℚ)) :=
  match dictLookup st.1.map_grid_block2coords res.1 with
  | none => none
  | some lc =>
    match dictLookup st.1.block_grid_tracker lc with
    | none => none
    | some r =>
      some ({ st.1 with heap := hup st.1.heap r { st.1.heap r with has_terrain_data := true } },
            dem_region_add p st.2 lc res.2)

/-- Loop over a drained result list, aborting on `KeyError`. -/
def collectLoop (step : GridSys × (ℕ → ℕ → ℚ) → (ℚ × ℚ) × (ℕ → ℕ → ℚ) →
    Option (GridSys × (ℕ → ℕ → ℚ))) :
    List ((ℚ × ℚ) × (ℕ → ℕ → ℚ)) → GridSys × (ℕ → ℕ → ℚ) → Option (GridSys × (ℕ → ℕ → ℚ))
  | [], st => some st
  | res :: rest, st =>
    match step st res with
    | none => none
    | some st' => collectLoop step rest st'

/-- `HighResDEMGen.collect_terrain_data`, given the drained crater and terrain result
lists (each result is `(world anchor, tile raster)`; for crater results the payload is
the raster `data[0]` the loop adds). -/
def collect_terrain_data (p : Params) (g : GridSys) (raster : ℕ → ℕ → ℚ)
    (crater_results terrain_results : List ((ℚ × ℚ) × (ℕ → ℕ → ℚ))) :
    Option (GridSys × (ℕ → ℕ → ℚ)) :=
  match collectLoop (collect_crater_step p) crater_results (g, raster) with
  | none => none
  | some st => collectLoop (collect_terrain_step p) terrain_results st

/-! ### Coarse-DEM patch extraction -/

/-- `self.lr_dem_px_offset = (shape[0] // 2, shape[1] // 2)` (`get_low_res_dem_offset`). -/
def lr_dem_px_offset (shape : ℕ × ℕ) : ℕ × ℕ := (shape.1 / 2, shape.2 / 2)

/-- `self.lr_dem_block_size = int(block_size / source_resolution)`. -/
def lr_dem_block_size (p : Params) : ℤ := pyTrunc (p.block_size / p.source_resolution)

/-- `HighResDEMGen.querry_low_res_dem(coordinates)`: the pair of slice-bound pairs
`((x_lo, x_hi), (y_lo, y_hi))` of the numpy slice it takes from `self.low_res_dem`.
The center pixel is `int(X / source_resolution + offset)` — Python `int()`, which
truncates toward zero. -/
def querry_low_res_dem_bounds (p : Params) (shape : ℕ × ℕ) (coordinates : ℚ × ℚ) :
    (ℤ × ℤ) × (ℤ × ℤ) :=
  let off := lr_dem_px_offset shape
  let cx := pyTrunc (coordinates.1 / p.source_resolution + (off.1 : ℚ))
  let cy := pyTrunc (coordinates.2 / p.source_resolution + (off.2 : ℚ))
  ((cx - p.interpolation_padding, cx + lr_dem_block_size p + p.interpolation_padding),
   (cy - p.interpolation_padding, cy + lr_dem_block_size p + p.interpolation_padding))

/-- The same bounds computed from the words of the specification (refinement target):
center pixel `(⌊X / source_resolution⌋ + cx, ⌊Y / source_resolution⌋ + cy)` — flooring
toward minus infinity — sliced `[p − P_c : p + T_c + P_c]` in each axis. -/
def spec_querry_bounds (p : Params) (shape : ℕ × ℕ) (coordinates : ℚ × ℚ) :
    (ℤ × ℤ) × (ℤ × ℤ) :=
  let cx : ℤ := ⌊coordinates.1 / p.source_resolution⌋ + (shape.1 / 2 : ℕ)
  let cy : ℤ := ⌊coordinates.2 / p.source_resolution⌋ + (shape.2 / 2 : ℕ)
  ((cx - p.interpolation_padding, cx + lr_dem_block_size p + p.interpolation_padding),
   (cy - p.interpolation_padding, cy + lr_dem_block_size p + p.interpolation_padding))

/-! ### Dispatcher: `get_shortest_queue_index` -/

/-- Python `min(iterable, key)` over a list of candidate indices with a running best:
replaces the best only on a strictly smaller key, so the *first* minimiser wins. -/
def pyMin (key : ℕ → ℕ) : List ℕ → ℕ → ℕ
  | [], best => best
  | i :: rest, best => pyMin key rest (if key i < key best then i else best)

/-- `BaseWorkerManager.get_shortest_queue_index`:
`min(range(len(self.workers)), key=lambda i: self.workers[i].get_input_queue_length())`,
taking the snapshot `lens` of the workers' input-queue lengths.  `dispatch_jobs` routes
each job to `self.workers[self.get_shortest_queue_index()]`. -/
def get_shortest_queue_index (lens : List ℕ) : ℕ :=
  pyMin (fun i => lens.getD i 0) (List.range lens.length) 0

/-! ### `InterpolatorCfg` and `CPUInterpolator` -/

/-- Python `str.lower` restricted to ASCII (all method names are ASCII). -/
def pyLowerChar (c : Char) : Char :=
  if c.toNat ≥ 65 ∧ c.toNat ≤ 90 then Char.ofNat (c.toNat + 32) else c

/-- `self.method.lower()`. -/
def pyLower (s : String) : String := ⟨s.data.map pyLowerChar⟩

/-- The cv2 interpolation flags the config resolves `method` to. -/
inductive CVInterFlag where
  | INTER_CUBIC
  | INTER_NEAREST
  | INTER_LINEAR
  | INTER_AREA
deriving DecidableEq

/-- Raw `InterpolatorCfg` fields as passed to the dataclass constructor. -/
structure InterpolatorCfg where
  source_resolution : ℚ
  target_resolution : ℚ
  source_padding : ℤ
  method : String

/-- The settings object after `__post_init__` ran. -/
structure InterpolatorSettings where
  source_resolution : ℚ
  target_resolution : ℚ
  source_padding : ℤ
  fx : ℚ
  fy : ℚ
  target_padding : ℤ
  method : CVInterFlag
deriving DecidableEq

/-- `InterpolatorCfg.__post_init__`: computes `fx = fy = source_resolution /
target_resolution` and `target_padding = int(source_padding * fx)` *before* coercing
`source_padding < 2` to `2`; an unrecognized method raises `ValueError` (`none`). -/
def interpolatorCfgPostInit (c : InterpolatorCfg) : Option InterpolatorSettings :=
  let m := pyLower c.method
  let fx := c.source_resolution / c.target_resolution
  let fy := c.source_resolution / c.target_resolution
  let target_padding := pyTrunc ((c.source_padding : ℚ) * fx)
  let sp := if c.source_padding < 2 then 2 else c.source_padding
  if m = "bicubic" then
    some ⟨c.source_resolution, c.target_resolution, sp, fx, fy, target_padding,
      CVInterFlag.INTER_CUBIC⟩
  else if m = "nearest" then
    some ⟨c.source_resolution, c.target_resolution, sp, fx, fy, target_padding,
      CVInterFlag.INTER_NEAREST⟩
  else if m = "linear" then
    some ⟨c.source_resolution, c.target_resolution, sp, fx, fy, target_padding,
      CVInterFlag.INTER_LINEAR⟩
  else if m = "area" then
    some ⟨c.source_resolution, c.target_resolution, sp, fx, fy, target_padding,
      CVInterFlag.INTER_AREA⟩
  else none

/-- The number of pixels `CPUInterpolator.interpolate` trims from each edge of the
resized patch: it slices `[int(source_padding * fx) : -int(source_padding * fy), ...]`
using the *post-coercion* `source_padding` (and `fx = fy`). -/
def interpolate_trim (s : InterpolatorSettings) : ℤ :=
  pyTrunc ((s.source_padding : ℚ) * s.fx)

/-! ### Arithmetic facts about numpy slice bounds -/

theorem npBound_of_nonneg_le {S : ℕ} {i : ℤ} (h0 : 0 ≤ i) (hS : i ≤ (S : ℤ)) :
    npBound S i = i.toNat := by
  simp only [npBound]
  rw [if_neg (by omega)]
  omega

theorem npBound_of_neg {S : ℕ} {i : ℤ} (h : i < 0) :
    npBound S i = (i + S).toNat := by
  simp only [npBound]
  rw [if_pos h]
  omega

theorem npBound_zero (S : ℕ) : npBound S 0 = 0 := by
  simp [npBound]

theorem npBound_self (S : ℕ) : npBound S (S : ℤ) = S := by
  simp only [npBound]
  rw [if_neg (by omega)]
  omega

theorem zeroCols_of_zero {S : ℕ} {f : ℕ → ℕ → ℚ} {d : ℤ} {yb : SliceBounds} {i j : ℕ}
    (h : f i j = 0) : zeroCols S f d yb i j = 0 := by
  unfold zeroCols
  split_ifs <;> simp [h]

/-- Claim C3: a pixel shift of magnitude at least the buffer side `S` (in either axis)
leaves every element of the `S × S` buffer zero after `shift_dem`.  The source guard
uses signed `>` only, but the slice normalisation of the else-branch still empties the
copy and the zero-fills cover the whole axis when `|shift| ≥ S`. -/
theorem claim_C3 (S : ℕ) (dem : ℕ → ℕ → ℚ) (dx dy : ℤ)
    (h : S ≤ dx.natAbs ∨ S ≤ dy.natAbs) (i j : ℕ) (hi : i < S) (hj : j < S) :
    shift_dem S dem dx dy i j = 0 := by
  unfold shift_dem
  by_cases hguard : dx > (S : ℤ) ∨ dy > (S : ℤ)
  · rw [if_pos hguard]
  · rw [if_neg hguard]
    push_neg at hguard
    obtain ⟨hgx, hgy⟩ := hguard
    rcases h with h | h
    · -- the x-axis fill zeroes every row of interest
      apply zeroCols_of_zero
      unfold zeroRows
      rcases (by omega : dx = (S : ℤ) ∨ dx ≤ -(S : ℤ)) with hc | hc
    
      · have hdpos : ¬ dx < 0 := by omega
        have hdpos' : dx > 0 := by omega
        rw [if_neg hdpos, if_pos hdpos']
        have : npBound S (axisBounds S dx).min_t = S := by
          simp only [axisBounds, if_pos hdpos']
          rw [hc]
          exact npBound_self S
        rw [if_pos (by omega)]
      · have hdneg : dx < 0 := by omega
        rw [if_pos hdneg]
        have : npBound S (axisBounds S dx).max_t = 0 := by
          simp only [axisBounds, if_neg (by omega : ¬ dx > 0), if_neg (by omega : ¬ dx = 0)]
          rw [npBound_of_neg hdneg]
          omega
        rw [if_pos (by omega)]
    · -- the y-axis fill zeroes every column of interest
      unfold zeroCols
      rcases (by omega : dy = (S : ℤ) ∨ dy ≤ -(S : ℤ)) with hc | hc
      · have hdpos : ¬ dy < 0 := by omega
        have hdpos' : dy > 0 := by omega
        rw [if_neg hdpos, if_pos hdpos']
        have : npBound S (axisBounds S dy).min_t = S := by
          simp only [axisBounds, if_pos hdpos']
          rw [hc]
          exact npBound_self S
        rw [if_pos (by omega)]
      · have hdneg : dy < 0 := by omega
        rw [if_pos hdneg]
        have : npBound S (axisBounds S dy).max_t = 0 := by
          simp only [axisBounds, if_neg (by omega : ¬ dy > 0), if_neg (by omega : ¬ dy = 0)]
          rw [npBound_of_neg hdneg]
          omega
        rw [if_pos (by omega)]

/-- Concrete test buffer for the raster witnesses. -/
def demW : ℕ → ℕ → ℚ := fun i j => (i : ℚ) * 10 + (j : ℚ)

/-- Witness for C3 at `S = 2`, shift `(2, 0)`. -/
theorem claim_C3_witness :
    (2 ≤ (2 : ℤ).natAbs ∨ 2 ≤ (0 : ℤ).natAbs) ∧ (0 : ℕ) < 2 ∧ (1 : ℕ) < 2 ∧
      shift_dem 2 demW 2 0 0 1 = 0 :=
  ⟨Or.inl (by decide), by decide, by decide, claim_C3 2 demW 2 0 (Or.inl (by decide)) 0 1
    (by decide) (by decide)⟩

theorem axisBounds_eval_neg (S : ℕ) {d : ℤ} (h : d < 0) :
    axisBounds S d = ⟨-d, (S : ℤ), 0, d⟩ := by
  unfold axisBounds
  rw [if_neg (by omega : ¬ d > 0), if_neg (by omega : ¬ d = 0)]

theorem axisBounds_eval_zero (S : ℕ) : axisBounds S 0 = ⟨0, (S : ℤ), 0, (S : ℤ)⟩ := by
  unfold axisBounds
  rw [if_neg (by omega : ¬ (0 : ℤ) > 0), if_pos rfl]

theorem axisBounds_eval_pos (S : ℕ) {d : ℤ} (h : d > 0) :
    axisBounds S d = ⟨0, -d, d, (S : ℤ)⟩ := by
  unfold axisBounds
  rw [if_pos h]

set_option maxHeartbeats 3000000 in
/-- Claim C4: for in-range shifts (`|Δ| < S` on both axes), `shift_dem` realises the
per-axis translation of the specification — `Δ > 0` copies `[0, S−Δ)` to `[Δ, S)` and
zeroes `[0, Δ)`; `Δ < 0` copies `[−Δ, S)` to `[0, S+Δ)` and zeroes `[S+Δ, S)`; `Δ = 0`
leaves the axis unchanged — and `shift_dem S dem 0 0` is the identity. -/
theorem claim_C4 (S : ℕ) (dem : ℕ → ℕ → ℚ) (dx dy : ℤ)
    (hx : dx.natAbs < S) (hy : dy.natAbs < S) :
    (∀ i j, i < S → j < S →
        shift_dem S dem dx dy i j =
          if dx ≤ (i : ℤ) ∧ (i : ℤ) - dx < (S : ℤ) ∧ dy ≤ (j : ℤ) ∧ (j : ℤ) - dy < (S : ℤ)
          then dem ((i : ℤ) - dx).toNat ((j : ℤ) - dy).toNat else 0)
    ∧ ∀ i j, shift_dem S dem 0 0 i j = dem i j := by
  constructor
  · intro i j hi hj
    unfold shift_dem
    rw [if_neg (by omega : ¬ (dx > (S : ℤ) ∨ dy > (S : ℤ)))]
    rcases lt_trichotomy dx 0 with hdx | hdx | hdx <;>
      rcases lt_trichotomy dy 0 with hdy | hdy | hdy
    · rw [axisBounds_eval_neg S hdx, axisBounds_eval_neg S hdy]
      dsimp only [zeroCols, zeroRows, copyRegion]
      rw [npBound_of_neg hdx, npBound_of_neg hdy, npBound_zero,
        npBound_of_nonneg_le (by omega : (0:ℤ) ≤ -dx) (by omega : -dx ≤ (S:ℤ)),
        npBound_of_nonneg_le (by omega : (0:ℤ) ≤ -dy) (by omega : -dy ≤ (S:ℤ))]
      split_ifs <;> first | rfl | omega | exact congrArg₂ dem (by omega) (by omega) |
        (exfalso; omega)
    · subst hdy
      rw [axisBounds_eval_neg S hdx, axisBounds_eval_zero S]
      dsimp only [zeroCols, zeroRows, copyRegion]
      rw [npBound_of_neg hdx, npBound_zero, npBound_self,
        npBound_of_nonneg_le (by omega : (0:ℤ) ≤ -dx) (by omega : -dx ≤ (S:ℤ))]
      split_ifs <;> first | rfl | omega | exact congrArg₂ dem (by omega) (by omega) |
        (exfalso; omega)
    · rw [axisBounds_eval_neg S hdx, axisBounds_eval_pos S hdy]
      dsimp only [zeroCols, zeroRows, copyRegion]
      rw [npBound_of_neg hdx, npBound_zero, npBound_self,
        npBound_of_nonneg_le (by omega : (0:ℤ) ≤ -dx) (by omega : -dx ≤ (S:ℤ)),
        npBound_of_nonneg_le (by omega : (0:ℤ) ≤ dy) (by omega : dy ≤ (S:ℤ))]
      split_ifs <;> first | rfl | omega | exact congrArg₂ dem (by omega) (by omega) |
        (exfalso; omega)
    · subst hdx
      rw [axisBounds_eval_zero S, axisBounds_eval_neg S hdy]
      dsimp only [zeroCols, zeroRows, copyRegion]
      rw [npBound_of_neg hdy, npBound_zero, npBound_self,
        npBound_of_nonneg_le (by omega : (0:ℤ) ≤ -dy) (by omega : -dy ≤ (S:ℤ))]
      split_ifs <;> first | rfl | omega | exact congrArg₂ dem (by omega) (by omega) |
        (exfalso; omega)
    · subst hdx
      subst hdy
      rw [axisBounds_eval_zero S]
      dsimp only [zeroCols, zeroRows, copyRegion]
      rw [npBound_zero, npBound_self]
      split_ifs <;> first | rfl | omega | exact congrArg₂ dem (by omega) (by omega) |
        (exfalso; omega)
    · subst hdx
      rw [axisBounds_eval_zero S, axisBounds_eval_pos S hdy]
      dsimp only [zeroCols, zeroRows, copyRegion]
      rw [npBound_zero, npBound_self,
        npBound_of_nonneg_le (by omega : (0:ℤ) ≤ dy) (by omega : dy ≤ (S:ℤ))]
      split_ifs <;> first | rfl | omega | exact congrArg₂ dem (by omega) (by omega) |
        (exfalso; omega)
    · rw [axisBounds_eval_pos S hdx, axisBounds_eval_neg S hdy]
      dsimp only [zeroCols, zeroRows, copyRegion]
      rw [npBound_of_neg hdy, npBound_zero, npBound_self,
        npBound_of_nonneg_le (by omega : (0:ℤ) ≤ dx) (by omega : dx ≤ (S:ℤ)),
        npBound_of_nonneg_le (by omega : (0:ℤ) ≤ -dy) (by omega : -dy ≤ (S:ℤ))]
      split_ifs <;> first | rfl | omega | exact congrArg₂ dem (by omega) (by omega) |
        (exfalso; omega)
    · subst hdy
      rw [axisBounds_eval_pos S hdx, axisBounds_eval_zero S]
      dsimp only [zeroCols, zeroRows, copyRegion]
      rw [npBound_zero, npBound_self,
        npBound_of_nonneg_le (by omega : (0:ℤ) ≤ dx) (by omega : dx ≤ (S:ℤ))]
      split_ifs <;> first | rfl | omega | exact congrArg₂ dem (by omega) (by omega) |
        (exfalso; omega)
    · rw [axisBounds_eval_pos S hdx, axisBounds_eval_pos S hdy]
      dsimp only [zeroCols, zeroRows, copyRegion]
      rw [npBound_zero, npBound_self,
        npBound_of_nonneg_le (by omega : (0:ℤ) ≤ dx) (by omega : dx ≤ (S:ℤ)),
        npBound_of_nonneg_le (by omega : (0:ℤ) ≤ dy) (by omega : dy ≤ (S:ℤ))]
      split_ifs <;> first | rfl | omega | exact congrArg₂ dem (by omega) (by omega) |
        (exfalso; omega)
  · intro i j
    unfold shift_dem
    rw [if_neg (by omega : ¬ ((0:ℤ) > (S : ℤ) ∨ (0:ℤ) > (S : ℤ))), axisBounds_eval_zero S]
    dsimp only [zeroCols, zeroRows, copyRegion]
    rw [npBound_zero, npBound_self]
    split_ifs <;> first | rfl | omega | exact congrArg₂ dem (by omega) (by omega) |
      (exfalso; omega)

/-- Witness for C4 at `S = 2`, shift `(1, -1)`, pixel `(1, 0)`. -/
theorem claim_C4_witness :
    (1 : ℤ).natAbs < 2 ∧ (-1 : ℤ).natAbs < 2 ∧ (1 : ℕ) < 2 ∧ (0 : ℕ) < 2 ∧
      shift_dem 2 demW 1 (-1) 1 0 =
        (if (1:ℤ) ≤ ((1:ℕ) : ℤ) ∧ ((1:ℕ) : ℤ) - 1 < (2 : ℤ) ∧ (-1:ℤ) ≤ ((0:ℕ) : ℤ) ∧
            ((0:ℕ) : ℤ) - (-1) < (2 : ℤ)
          then demW (((1:ℕ) : ℤ) - 1).toNat (((0:ℕ) : ℤ) - (-1)).toNat else 0) :=
  ⟨by decide, by decide, by decide, by decide,
    (claim_C4 2 demW 1 (-1) (by decide) (by decide)).1 1 0 (by decide) (by decide)⟩

/-! ### Dispatcher proofs -/

theorem pyMin_range'_spec (key : ℕ → ℕ) :
    ∀ m s best, best < s → (∀ j, j < s → key best ≤ key j) →
      (∀ j, j < best → key best < key j) →
      pyMin key (List.range' s m) best < s + m ∧
        (∀ j, j < s + m → key (pyMin key (List.range' s m) best) ≤ key j) ∧
        (∀ j, j < pyMin key (List.range' s m) best →
          key (pyMin key (List.range' s m) best) < key j) := by
  intro m
  induction m with
  | zero =>
    intro s best hlt hmin hfirst
    simp only [List.range', pyMin]
    exact ⟨by omega, fun j hj => hmin j (by omega), hfirst⟩
  | succ m ih =>
    intro s best hlt hmin hfirst
    rw [List.range'_succ]
    simp only [pyMin]
    by_cases hc : key s < key best
    · rw [if_pos hc]
      have h1 : ∀ j, j < s + 1 → key s ≤ key j := by
        intro j hj
        rcases (by omega : j < s ∨ j = s) with h | h
        · exact le_of_lt (lt_of_lt_of_le hc (hmin j h))
        · rw [h]
      have h2 : ∀ j, j < s → key s < key j := fun j hj => lt_of_lt_of_le hc (hmin j hj)
      have := ih (s + 1) s (by omega) h1 h2
      refine ⟨by omega, fun j hj => (this.2.1) j (by omega), this.2.2⟩
    · rw [if_neg hc]
      have h1 : ∀ j, j < s + 1 → key best ≤ key j := by
        intro j hj
        rcases (by omega : j < s ∨ j = s) with h | h
        · exact hmin j h
        · rw [h]; omega
      have := ih (s + 1) best (by omega) h1 hfirst
      refine ⟨by omega, fun j hj => (this.2.1) j (by omega), this.2.2⟩

/-- Claim C9: `get_shortest_queue_index` (used by `dispatch_jobs` to route each job)
returns an index of minimal input-queue length in the snapshot `lens`, and the smallest
index attaining that minimum (Python `min` keeps the first minimiser). -/
theorem claim_C9 (lens : List ℕ) (h : lens ≠ []) :
    get_shortest_queue_index lens < lens.length ∧
      (∀ j, j < lens.length →
        lens.getD (get_shortest_queue_index lens) 0 ≤ lens.getD j 0) ∧
      (∀ j, j < get_shortest_queue_index lens →
        lens.getD (get_shortest_queue_index lens) 0 < lens.getD j 0) := by
  have hn : 1 ≤ lens.length := by
    cases lens with
    | nil => simp at h
    | cons a l => simp
  unfold get_shortest_queue_index
  rw [List.range_eq_range']
  have hsplit : List.range' 0 lens.length = 0 :: List.range' 1 (lens.length - 1) := by
    rw [show lens.length = (lens.length - 1) + 1 from by omega, List.range'_succ]
    simp
  rw [hsplit]
  have hstep : pyMin (fun i => lens.getD i 0) (0 :: List.range' 1 (lens.length - 1)) 0 =
      pyMin (fun i => lens.getD i 0) (List.range' 1 (lens.length - 1)) 0 := by
    simp [pyMin]
  rw [hstep]
  have hkey : ∀ j, j < 1 → (fun i => lens.getD i 0) 0 ≤ (fun i => lens.getD i 0) j := by
    intro j hj
    have hj0 : j = 0 := by omega
    simp [hj0]
  obtain ⟨ha, hb, hc⟩ := pyMin_range'_spec (fun i => lens.getD i 0) (lens.length - 1) 1 0
    (by omega) hkey (fun j hj => absurd hj (by omega))
  exact ⟨by omega, fun j hj => hb j (by omega), hc⟩

/-- Witness for C9 on the snapshot `[3, 1, 2]` (chosen index is 1). -/
theorem claim_C9_witness :
    ([3, 1, 2] : List ℕ) ≠ [] ∧
      (get_shortest_queue_index [3, 1, 2] < ([3, 1, 2] : List ℕ).length ∧
        (∀ j, j < ([3, 1, 2] : List ℕ).length →
          List.getD [3, 1, 2] (get_shortest_queue_index [3, 1, 2]) 0 ≤ List.getD [3, 1, 2] j 0) ∧
        (∀ j, j < get_shortest_queue_index [3, 1, 2] →
          List.getD [3, 1, 2] (get_shortest_queue_index [3, 1, 2]) 0 < List.getD [3, 1, 2] j 0)) :=
  ⟨by decide, claim_C9 [3, 1, 2] (by decide)⟩

/-- Claim C10: for a recognized method and raw `source_padding < 2`, `__post_init__`
coerces the stored `source_padding` to 2, but `target_padding` was already computed from
the *pre-coercion* padding as `int(raw * fx)`, while `CPUInterpolator.interpolate` trims
`int(2 * fx)` pixels (the coerced value) — so `target_padding` need not describe the trim. -/
theorem claim_C10 (c : InterpolatorCfg) (s : InterpolatorSettings)
    (hp : c.source_padding < 2) (hok : interpolatorCfgPostInit c = some s) :
    s.source_padding = 2 ∧
      s.target_padding =
        pyTrunc ((c.source_padding : ℚ) * (c.source_resolution / c.target_resolution)) ∧
      interpolate_trim s =
        pyTrunc ((2 : ℚ) * (c.source_resolution / c.target_resolution)) := by
  unfold interpolatorCfgPostInit at hok
  dsimp only at hok
  split_ifs at hok <;>
    · injection hok with hok
      subst hok
      refine ⟨by simp [hp], rfl, ?_⟩
      unfold interpolate_trim
      simp [hp]

/-- Witness for C10: `source_resolution = 2`, `target_resolution = 1`,
raw `source_padding = 1`, method `"nearest"`: stored `target_padding = 2` but the trim
actually applied is `4`. -/
theorem claim_C10_witness :
    (1 : ℤ) < 2 ∧
      (∃ s, interpolatorCfgPostInit ⟨2, 1, 1, "nearest"⟩ = some s ∧
        s.source_padding = 2 ∧
        s.target_padding =
          pyTrunc (((1 : ℤ) : ℚ) * ((2 : ℚ) / (1 : ℚ))) ∧
        interpolate_trim s = pyTrunc ((2 : ℚ) * ((2 : ℚ) / (1 : ℚ))) ∧
        s.target_padding = 2 ∧ interpolate_trim s = 4 ∧
        s.target_padding ≠ interpolate_trim s) := by
  refine ⟨by decide, ?_⟩
  have hok : interpolatorCfgPostInit ⟨2, 1, 1, "nearest"⟩ =
      some ⟨2, 1, 2, 2, 2, 2, CVInterFlag.INTER_NEAREST⟩ := by
    norm_num [interpolatorCfgPostInit, pyTrunc,
      show pyLower "nearest" = "nearest" from by decide,
      show ("nearest" : String) ≠ "bicubic" from by decide]
  obtain ⟨h1, h2, h3⟩ := claim_C10 ⟨2, 1, 1, "nearest"⟩ _ (by decide) hok
  refine ⟨_, hok, h1, h2, h3, rfl, ?_, ?_⟩
  · norm_num [interpolate_trim, pyTrunc]
  · norm_num [interpolate_trim, pyTrunc]

/-! ### Coarse-DEM query: Python `int()` vs the specified floor -/

theorem pyTrunc_eq_floor_of_nonneg {q : ℚ} (h : 0 ≤ q) : pyTrunc q = ⌊q⌋ := by
  unfold pyTrunc
  rw [if_neg (not_lt.mpr h)]

/-- Test parameters for the coarse-DEM query claims: `block_size = 5` with
`source_resolution = 2`, so genuine block anchors (integer multiples of `block_size`)
can have fractional `X / source_resolution`. -/
def pQ : Params :=
  { num_blocks := 0, block_size := 5, resolution := 1, source_resolution := 2,
    interpolation_padding := 2 }

/-- Counterexample to C8 as stated: `(-5, -5)` is a genuine world block anchor
(`-5 = -1 · block_size`); with `source_resolution = 2` and a `2 × 2` coarse DEM
(`cx = cy = 1`), the code computes center pixel `int(-5/2 + 1) = int(-1.5) = -1`
(truncation toward zero), whereas the claimed `⌊-5/2⌋ + 1 = -2`; the slice bounds
differ. -/
theorem claim_C8_counterexample :
    (-5 : ℚ) = (-1 : ℤ) * pQ.block_size ∧
      querry_low_res_dem_bounds pQ (2, 2) (-5, -5) ≠ spec_querry_bounds pQ (2, 2) (-5, -5) := by
  constructor
  · norm_num [pQ]
  · norm_num [querry_low_res_dem_bounds, spec_querry_bounds, lr_dem_px_offset,
      lr_dem_block_size, pyTrunc, pQ, Prod.ext_iff]

/-- C8 as amended: whenever the shifted center `X / source_resolution + cx` is
nonneg (in particular for every anchor inside the coarse DEM's left half-extent —
truncation and floor then agree), the code's slice bounds equal the specified
`(⌊X/source_resolution⌋ + cx − P_c, ⌊X/source_resolution⌋ + cx + T_c + P_c)` per axis. -/
theorem claim_C8_amended (p : Params) (shape : ℕ × ℕ) (coordinates : ℚ × ℚ)
    (h1 : 0 ≤ coordinates.1 / p.source_resolution + ((shape.1 / 2 : ℕ) : ℚ))
    (h2 : 0 ≤ coordinates.2 / p.source_resolution + ((shape.2 / 2 : ℕ) : ℚ)) :
    querry_low_res_dem_bounds p shape coordinates = spec_querry_bounds p shape coordinates := by
  simp only [querry_low_res_dem_bounds, spec_querry_bounds, lr_dem_px_offset]
  rw [pyTrunc_eq_floor_of_nonneg h1, pyTrunc_eq_floor_of_nonneg h2,
    Int.floor_add_nat, Int.floor_add_nat]

/-- Witness for the amended C8 at the genuine block anchor `(5, 0)`
(`5 = 1 · block_size`, `0 = 0 · block_size`; both shifted centers nonneg). -/
theorem claim_C8_amended_witness :
    (0 ≤ (5 : ℚ) / pQ.source_resolution + (((2 : ℕ) / 2 : ℕ) : ℚ)) ∧
      (0 ≤ (0 : ℚ) / pQ.source_resolution + (((2 : ℕ) / 2 : ℕ) : ℚ)) ∧
      querry_low_res_dem_bounds pQ (2, 2) (5, 0) = spec_querry_bounds pQ (2, 2) (5, 0) := by
  refine ⟨by norm_num [pQ], by norm_num [pQ], ?_⟩
  exact claim_C8_amended pQ (2, 2) (5, 0) (by norm_num [pQ]) (by norm_num [pQ])

/-! ### Concrete grid instance (`num_blocks = 0`, `block_size = 1`) -/

/-- Minimal test parameters for the block-grid claims: window `3 × 3`, unit blocks. -/
def pT : Params :=
  { num_blocks := 0, block_size := 1, resolution := 1, source_resolution := 1,
    interpolation_padding := 2 }

/-- C1 is a code bug: after building the grid at `(0,0)` and shifting the window to the
block-aligned center `(1, 0)`, the tile at new local offset `(1, 0)` — a margin offset,
`max(|dx|,|dy|) = num_blocks + 1`, as the code's own `isPaddingIdx` confirms — has
`is_padding = false`: `shift_block_grid` writes the padding flags through the *old*
tracker's state objects, so states reachable in the new tracker never receive them. -/
theorem claim_C1_code_bug :
    isPaddingIdx pT.num_blocks 1 0 = true ∧
      (shift_block_grid pT (build_block_grid pT (0, 0)) (1, 0)).bind
        (fun g => padAt g ((1 : ℚ), (0 : ℚ))) = some false := by
  constructor
  · decide
  · norm_num [build_block_grid, gridPairs, gridRange, List.range_succ, buildStep,
      dictInsert, dictLookup, hup, freshState, isPaddingIdx, Prod.ext_iff, pT,
      shift_block_grid, shiftLoop, shiftStep, padAt]

/-! ### C5: stale collect results raise instead of being discarded -/

/-- Counterexample to C5 as stated: draining a result whose world anchor `(10, 10)` is
not tracked makes `collect_terrain_data` raise `KeyError` (modelled `none`) — it does not
complete. -/
theorem claim_C5_counterexample :
    dictLookup (build_block_grid pT (0, 0)).map_grid_block2coords ((10 : ℚ), (10 : ℚ)) =
        none ∧
      collect_terrain_data pT (build_block_grid pT (0, 0)) (fun _ _ => 0)
        [(((10 : ℚ), (10 : ℚ)), fun _ _ => 0)] [] = none := by
  have h : dictLookup (build_block_grid pT (0, 0)).map_grid_block2coords
      ((10 : ℚ), (10 : ℚ)) = none := by
    norm_num [build_block_grid, gridPairs, gridRange, List.range_succ, buildStep,
      dictInsert, dictLookup, hup, freshState, isPaddingIdx, Prod.ext_iff, pT]
  refine ⟨h, ?_⟩
  simp only [collect_terrain_data, collectLoop, collect_crater_step, h]

/-- C5 as amended: a drained result whose world anchor is absent from
`map_grid_block2coords` is *not* silently discarded — the unguarded lookup raises
`KeyError` (both for crater and terrain results), and `collect_terrain_data` aborts
without applying that result to the raster or to any flag. -/
theorem claim_C5_amended (p : Params) (g : GridSys) (raster : ℕ → ℕ → ℚ)
    (key : ℚ × ℚ) (data : ℕ → ℕ → ℚ)
    (h : dictLookup g.map_grid_block2coords key = none) :
    collect_crater_step p (g, raster) (key, data) = none ∧
      collect_terrain_step p (g, raster) (key, data) = none ∧
      collect_terrain_data p g raster [(key, data)] [] = none := by
  refine ⟨?_, ?_, ?_⟩
  · simp only [collect_crater_step, h]
  · simp only [collect_terrain_step, h]
  · simp only [collect_terrain_data, collectLoop, collect_crater_step, h]

/-- Witness for the amended C5 at the untracked anchor `(10, 10)`. -/
theorem claim_C5_amended_witness :
    dictLookup (build_block_grid pT (0, 0)).map_grid_block2coords ((10 : ℚ), (10 : ℚ)) =
        none ∧
      (collect_crater_step pT (build_block_grid pT (0, 0), fun _ _ => 0)
          (((10 : ℚ), (10 : ℚ)), fun _ _ => 0) = none ∧
        collect_terrain_step pT (build_block_grid pT (0, 0), fun _ _ => 0)
          (((10 : ℚ), (10 : ℚ)), fun _ _ => 0) = none ∧
        collect_terrain_data pT (build_block_grid pT (0, 0)) (fun _ _ => 0)
          [(((10 : ℚ), (10 : ℚ)), fun _ _ => 0)] [] = none) := by
  have h : dictLookup (build_block_grid pT (0, 0)).map_grid_block2coords
      ((10 : ℚ), (10 : ℚ)) = none := by
    norm_num [build_block_grid, gridPairs, gridRange, List.range_succ, buildStep,
      dictInsert, dictLookup, hup, freshState, isPaddingIdx, Prod.ext_iff, pT]
  exact ⟨h, claim_C5_amended pT (build_block_grid pT (0, 0)) (fun _ _ => 0)
    ((10 : ℚ), (10 : ℚ)) (fun _ _ => 0) h⟩

/-! ### Grid machinery: keys, ranges, and the reachability invariant -/

/-- The local dict key `(x_c, y_c) = (x, y) · block_size` used by both grid loops. -/
def scaledKey (p : Params) (xy : ℤ × ℤ) : ℚ × ℚ :=
  ((xy.1 : ℚ) * p.block_size, (xy.2 : ℚ) * p.block_size)

theorem scaledKey_injective (p : Params) (hbs : p.block_size ≠ 0) :
    Function.Injective (scaledKey p) := by
  intro a b h
  simp only [scaledKey, Prod.mk.injEq] at h
  have h1 : ((a.1 : ℚ)) = (b.1 : ℚ) := mul_right_cancel₀ hbs h.1
  have h2 : ((a.2 : ℚ)) = (b.2 : ℚ) := mul_right_cancel₀ hbs h.2
  have := Int.cast_injective (α := ℚ) h1
  have := Int.cast_injective (α := ℚ) h2
  exact Prod.ext (by assumption) (by assumption)

theorem mem_gridRange {nb : ℕ} {x : ℤ} :
    x ∈ gridRange nb ↔ -((nb : ℤ) + 1) ≤ x ∧ x ≤ (nb : ℤ) + 1 := by
  unfold gridRange
  rw [List.mem_map]
  constructor
  · rintro ⟨k, hk, rfl⟩
    rw [List.mem_range] at hk
    omega
  · intro ⟨h1, h2⟩
    refine ⟨(x + (nb + 1)).toNat, ?_, ?_⟩
    · rw [List.mem_range]
      omega
    · omega

theorem gridRange_nodup (nb : ℕ) : (gridRange nb).Nodup := by
  unfold gridRange
  refine List.Nodup.map ?_ (List.nodup_range _)
  intro a b h
  dsimp only at h
  omega

theorem gridRange_length (nb : ℕ) : (gridRange nb).length = 2 * nb + 3 := by
  rw [gridRange, List.length_map, List.length_range]

theorem mem_gridPairs {nb : ℕ} {xy : ℤ × ℤ} :
    xy ∈ gridPairs nb ↔ xy.1 ∈ gridRange nb ∧ xy.2 ∈ gridRange nb := by
  simp only [gridPairs, List.mem_flatMap, List.mem_map]
  constructor
  · rintro ⟨x, hx, y, hy, rfl⟩
    exact ⟨hx, hy⟩
  · intro ⟨hx, hy⟩
    exact ⟨xy.1, hx, xy.2, hy, rfl⟩

theorem gridPairs_nodup (nb : ℕ) : (gridPairs nb).Nodup := by
  rw [gridPairs, List.nodup_flatMap]
  refine ⟨fun x _ => (gridRange_nodup nb).map (fun a b h => by
    simpa using congrArg Prod.snd h), ?_⟩
  have : ∀ (l : List ℤ), l.Nodup → List.Pairwise
      (List.Disjoint on fun x => (gridRange nb).map (fun y => (x, y))) l := by
    intro l hl
    refine hl.imp ?_
    intro a b hab
    intro z hza hzb
    simp only [List.mem_map] at hza hzb
    obtain ⟨y1, _, rfl⟩ := hza
    obtain ⟨y2, _, h2⟩ := hzb
    exact hab (by simpa using congrArg Prod.fst h2.symm)
  exact this _ (gridRange_nodup nb)

theorem gridPairs_length (nb : ℕ) : (gridPairs nb).length = (2 * nb + 3) ^ 2 := by
  rw [gridPairs, List.length_flatMap]
  have : (List.map (List.length ∘ fun x => (gridRange nb).map (fun y => (x, y)))
      (gridRange nb)) = List.map (fun _ => 2 * nb + 3) (gridRange nb) := by
    apply List.map_congr_left
    intro x _
    simp [gridRange_length]
  rw [this]
  have hsum : ∀ (l : List ℤ) (c : ℕ), (List.map (fun _ => c) l).sum = c * l.length := by
    intro l c
    induction l with
    | nil => simp
    | cons a t ih =>
      rw [List.map_cons, List.sum_cons, ih, List.length_cons, Nat.mul_succ, Nat.add_comm]
  rw [hsum, gridRange_length]
  ring

theorem gridPairs_scaled_nodup (p : Params) (hbs : p.block_size ≠ 0) :
    ((gridPairs p.num_blocks).map (scaledKey p)).Nodup :=
  (gridPairs_nodup p.num_blocks).map (scaledKey_injective p hbs)

/-- Bool-valued reachability invariant of the grid system: tracked references are live
(below the allocation counter), every grid local key is tracked, and every world anchor's
local key is tracked.  Established by `build_block_grid`, preserved by every shift. -/
def gridInv (p : Params) (g : GridSys) : Bool :=
  g.block_grid_tracker.all (fun kv => kv.2 < g.fresh) &&
  (gridPairs p.num_blocks).all
    (fun xy => (dictLookup g.block_grid_tracker (scaledKey p xy)).isSome) &&
  g.map_grid_block2coords.all
    (fun kv => (dictLookup g.block_grid_tracker kv.2).isSome)

theorem gridInv_spec {p : Params} {g : GridSys} (h : gridInv p g = true) :
    (∀ kv ∈ g.block_grid_tracker, kv.2 < g.fresh) ∧
      (∀ xy ∈ gridPairs p.num_blocks,
        (dictLookup g.block_grid_tracker (scaledKey p xy)).isSome) ∧
      ∀ kv ∈ g.map_grid_block2coords,
        (dictLookup g.block_grid_tracker kv.2).isSome := by
  simp only [gridInv, Bool.and_eq_true, List.all_eq_true] at h
  refine ⟨fun kv hkv => by simpa using h.1.1 kv hkv,
    fun xy hxy => by simpa using h.1.2 xy hxy,
    fun kv hkv => by simpa using h.2 kv hkv⟩

theorem gridInv_of_spec {p : Params} {g : GridSys}
    (h1 : ∀ kv ∈ g.block_grid_tracker, kv.2 < g.fresh)
    (h2 : ∀ xy ∈ gridPairs p.num_blocks,
      (dictLookup g.block_grid_tracker (scaledKey p xy)).isSome)
    (h3 : ∀ kv ∈ g.map_grid_block2coords,
      (dictLookup g.block_grid_tracker kv.2).isSome) :
    gridInv p g = true := by
  simp only [gridInv, Bool.and_eq_true, List.all_eq_true]
  exact ⟨⟨fun kv hkv => by simpa using h1 kv hkv, fun xy hxy => by simpa using h2 xy hxy⟩,
    fun kv hkv => by simpa using h3 kv hkv⟩

/-- The world anchor key `(x_i, y_i) = (x_c + c.1, y_c + c.2)` used by both grid loops. -/
def worldKey (p : Params) (c : ℚ × ℚ) (xy : ℤ × ℤ) : ℚ × ℚ :=
  ((xy.1 : ℚ) * p.block_size + c.1, (xy.2 : ℚ) * p.block_size + c.2)

theorem hup_hup_same (h : ℕ → BlockState) (r : ℕ) (s s' : BlockState) :
    hup (hup h r s) r s' = hup h r s' := by
  funext r'
  unfold hup
  split <;> rfl

theorem buildStep_eq (p : Params) (c : ℚ × ℚ) (acc : GridSys) (xy : ℤ × ℤ) :
    buildStep p c acc xy =
      { heap := hup acc.heap acc.fresh
          { freshState with is_padding := isPaddingIdx p.num_blocks xy.1 xy.2 }
        fresh := acc.fresh + 1
        block_grid_tracker := dictInsert acc.block_grid_tracker (scaledKey p xy) acc.fresh
        map_grid_block2coords :=
          dictInsert acc.map_grid_block2coords (worldKey p c xy) (scaledKey p xy) } := by
  simp only [buildStep, hup_same, hup_hup_same, scaledKey, worldKey]

theorem build_loop_lookup_other (p : Params) (c : ℚ × ℚ) :
    ∀ (l : List (ℤ × ℤ)) (acc : GridSys) (K : ℚ × ℚ),
      (∀ xy ∈ l, scaledKey p xy ≠ K) →
      dictLookup (l.foldl (buildStep p c) acc).block_grid_tracker K =
        dictLookup acc.block_grid_tracker K := by
  intro l
  induction l with
  | nil => intro acc K _; rfl
  | cons a t ih =>
    intro acc K h
    rw [List.foldl_cons, ih _ _ (fun xy hxy => h xy (List.mem_cons_of_mem _ hxy)),
      buildStep_eq]
    dsimp only
    rw [dictLookup_dictInsert,
      if_neg (fun he => h a (List.mem_cons_self _ _) he.symm)]

theorem build_loop_tracker (p : Params) (c : ℚ × ℚ) :
    ∀ (l : List (ℤ × ℤ)) (acc : GridSys),
      (l.map (scaledKey p)).Nodup →
      (∀ xy ∈ l, dictLookup acc.block_grid_tracker (scaledKey p xy) = none) →
      ((l.foldl (buildStep p c) acc).block_grid_tracker.length
          = acc.block_grid_tracker.length + l.length) ∧
      ∀ xy ∈ l, (dictLookup (l.foldl (buildStep p c) acc).block_grid_tracker
          (scaledKey p xy)).isSome := by
  intro l
  induction l with
  | nil =>
    intro acc _ _
    exact ⟨by simp, by simp⟩
  | cons a t ih =>
    intro acc hnd hnone
    have hnotin : scaledKey p a ∉ t.map (scaledKey p) := by
      rw [List.map_cons, List.nodup_cons] at hnd
      exact hnd.1
    have hnd' : (t.map (scaledKey p)).Nodup := by
      rw [List.map_cons, List.nodup_cons] at hnd
      exact hnd.2
    have hka : dictLookup acc.block_grid_tracker (scaledKey p a) = none :=
      hnone a (List.mem_cons_self _ _)
    have hnone' : ∀ xy ∈ t,
        dictLookup (buildStep p c acc a).block_grid_tracker (scaledKey p xy) = none := by
      intro xy hxy
      rw [buildStep_eq]
      dsimp only
      rw [dictLookup_dictInsert,
        if_neg (fun he => hnotin (by rw [← he]; exact List.mem_map_of_mem _ hxy))]
      exact hnone xy (List.mem_cons_of_mem _ hxy)
    obtain ⟨ihlen, ihsome⟩ := ih (buildStep p c acc a) hnd' hnone'
    rw [List.foldl_cons]
    constructor
    · rw [ihlen, buildStep_eq]
      dsimp only
      rw [dictInsert_length, hka]
      simp only [Option.isSome_none, Bool.false_eq_true, if_false, List.length_cons]
      omega
    · intro xy hxy
      rcases List.mem_cons.mp hxy with rfl | hxy'
      · rw [build_loop_lookup_other p c t _ _
          (fun z hz he => hnotin (by rw [← he]; exact List.mem_map_of_mem _ hz)),
          buildStep_eq]
        dsimp only
        rw [dictLookup_dictInsert, if_pos rfl]
        rfl
      · exact ihsome xy hxy'

theorem build_loop_entries (p : Params) (c : ℚ × ℚ) :
    ∀ (l : List (ℤ × ℤ)) (acc : GridSys),
      (∀ kv ∈ acc.block_grid_tracker, kv.2 < acc.fresh) →
      (∀ kv ∈ acc.map_grid_block2coords,
        (dictLookup acc.block_grid_tracker kv.2).isSome) →
      (∀ kv ∈ (l.foldl (buildStep p c) acc).block_grid_tracker,
          kv.2 < (l.foldl (buildStep p c) acc).fresh) ∧
      ∀ kv ∈ (l.foldl (buildStep p c) acc).map_grid_block2coords,
          (dictLookup (l.foldl (buildStep p c) acc).block_grid_tracker kv.2).isSome := by
  intro l
  induction l with
  | nil =>
    intro acc h1 h2
    exact ⟨h1, h2⟩
  | cons a t ih =>
    intro acc h1 h2
    rw [List.foldl_cons]
    apply ih
    · intro kv hkv
      rw [buildStep_eq] at hkv
      dsimp only at hkv ⊢
      rw [buildStep_eq]
      dsimp only
      rcases dictInsert_mem hkv with h | h
      · rw [h]
        omega
      · have := h1 kv h
        omega
    · intro kv hkv
      rw [buildStep_eq] at hkv ⊢
      dsimp only at hkv ⊢
      rw [dictLookup_dictInsert]
      rcases dictInsert_mem hkv with h | h
      · rw [h]
        simp
      · split
        · rfl
        · exact h2 kv h

/-- `build_block_grid` establishes the grid invariant. -/
theorem build_gridInv (p : Params) (c : ℚ × ℚ) (hbs : p.block_size ≠ 0) :
    gridInv p (build_block_grid p c) = true := by
  unfold build_block_grid
  have hent := build_loop_entries p c (gridPairs p.num_blocks)
    { heap := fun _ => freshState, fresh := 0
      block_grid_tracker := [], map_grid_block2coords := [] }
    (by simp) (by simp)
  have htr := build_loop_tracker p c (gridPairs p.num_blocks)
    { heap := fun _ => freshState, fresh := 0
      block_grid_tracker := [], map_grid_block2coords := [] }
    (gridPairs_scaled_nodup p hbs) (by simp)
  exact gridInv_of_spec hent.1 htr.2 hent.2

/-- `build_block_grid` creates exactly `(2·num_blocks + 3)²` tracker entries. -/
theorem build_tracker_length (p : Params) (c : ℚ × ℚ) (hbs : p.block_size ≠ 0) :
    (build_block_grid p c).block_grid_tracker.length = (2 * p.num_blocks + 3) ^ 2 := by
  unfold build_block_grid
  have htr := build_loop_tracker p c (gridPairs p.num_blocks)
    { heap := fun _ => freshState, fresh := 0
      block_grid_tracker := [], map_grid_block2coords := [] }
    (gridPairs_scaled_nodup p hbs) (by simp)
  rw [htr.1]
  simp [gridPairs_length]

/-! ### Shift-loop machinery -/

/-- Equality of the three synthesis flags (everything but `is_padding`). -/
def hasFlagsEq (s t : BlockState) : Prop :=
  s.has_crater_metadata = t.has_crater_metadata ∧
    s.has_crater_data = t.has_crater_data ∧
    s.has_terrain_data = t.has_terrain_data

theorem hasFlagsEq_refl (s : BlockState) : hasFlagsEq s s := ⟨rfl, rfl, rfl⟩

theorem hasFlagsEq_trans {a b c : BlockState} (h1 : hasFlagsEq a b) (h2 : hasFlagsEq b c) :
    hasFlagsEq a c :=
  ⟨h1.1.trans h2.1, h1.2.1.trans h2.2.1, h1.2.2.trans h2.2.2⟩

theorem shiftStep_eq_carried (p : Params) (g : GridSys) (c : ℚ × ℚ) (acc : ShiftAcc)
    (xy : ℤ × ℤ) (L : ℚ × ℚ) (r rOld : ℕ)
    (hm : dictLookup g.map_grid_block2coords (worldKey p c xy) = some L)
    (ht : dictLookup g.block_grid_tracker L = some r)
    (hO : dictLookup g.block_grid_tracker (scaledKey p xy) = some rOld) :
    shiftStep p g c acc xy = some
      { newTracker := dictInsert acc.newTracker (scaledKey p xy) r
        newMap := dictInsert acc.newMap (worldKey p c xy) (scaledKey p xy)
        heap := hup acc.heap rOld
          { acc.heap rOld with is_padding := isPaddingIdx p.num_blocks xy.1 xy.2 }
        fresh := acc.fresh } := by
  unfold worldKey at hm
  unfold scaledKey at hO
  simp only [shiftStep, hm, ht, hO, worldKey, scaledKey]

theorem shiftStep_eq_fresh (p : Params) (g : GridSys) (c : ℚ × ℚ) (acc : ShiftAcc)
    (xy : ℤ × ℤ) (rOld : ℕ)
    (hm : dictLookup g.map_grid_block2coords (worldKey p c xy) = none)
    (hO : dictLookup g.block_grid_tracker (scaledKey p xy) = some rOld) :
    shiftStep p g c acc xy = some
      { newTracker := dictInsert acc.newTracker (scaledKey p xy) acc.fresh
        newMap := dictInsert acc.newMap (worldKey p c xy) (scaledKey p xy)
        heap := hup (hup acc.heap acc.fresh freshState) rOld
          { (hup acc.heap acc.fresh freshState) rOld with
              is_padding := isPaddingIdx p.num_blocks xy.1 xy.2 }
        fresh := acc.fresh + 1 } := by
  unfold worldKey at hm
  unfold scaledKey at hO
  simp only [shiftStep, hm, hO, worldKey, scaledKey]

/-- Everything one successful `shiftStep` guarantees, given the grid invariant. -/
theorem shiftStep_success (p : Params) (g : GridSys) (c : ℚ × ℚ) (acc : ShiftAcc)
    (xy : ℤ × ℤ) (hInv : gridInv p g = true) (hmem : xy ∈ gridPairs p.num_blocks) :
    ∃ acc', shiftStep p g c acc xy = some acc' ∧
      acc.fresh ≤ acc'.fresh ∧
      (∀ t, t < acc.fresh → hasFlagsEq (acc'.heap t) (acc.heap t)) ∧
      acc'.newMap = dictInsert acc.newMap (worldKey p c xy) (scaledKey p xy) ∧
      (∃ r, acc'.newTracker = dictInsert acc.newTracker (scaledKey p xy) r ∧
        ((r = acc.fresh ∧ acc'.fresh = acc.fresh + 1) ∨
          ∃ L, dictLookup g.block_grid_tracker L = some r)) ∧
      (∀ L r', dictLookup g.map_grid_block2coords (worldKey p c xy) = some L →
        dictLookup g.block_grid_tracker L = some r' →
        acc'.newTracker = dictInsert acc.newTracker (scaledKey p xy) r') := by
  obtain ⟨hbound, htotal, hmapc⟩ := gridInv_spec hInv
  obtain ⟨rOld, hO⟩ := Option.isSome_iff_exists.mp (htotal xy hmem)
  cases hm : dictLookup g.map_grid_block2coords (worldKey p c xy) with
  | none =>
    refine ⟨_, shiftStep_eq_fresh p g c acc xy rOld hm hO, ?_, ?_, rfl, ?_, ?_⟩
    · dsimp only
      omega
    · intro t ht
      dsimp only
      unfold hup
      split
      · rename_i h1
        subst h1
        split
        · rename_i h2
          exact absurd h2 (by omega)
        · exact ⟨rfl, rfl, rfl⟩
      · split
        · rename_i h2
          exact absurd h2 (by omega)
        · exact hasFlagsEq_refl _
    · exact ⟨acc.fresh, rfl, Or.inl ⟨rfl, rfl⟩⟩
    · intro L r' hL
      exact absurd hL (by simp)
  | some L =>
    obtain ⟨r, ht⟩ := Option.isSome_iff_exists.mp
      (hmapc (worldKey p c xy, L) (dictLookup_mem hm))
    refine ⟨_, shiftStep_eq_carried p g c acc xy L r rOld hm ht hO, le_refl _, ?_, rfl,
      ⟨r, rfl, Or.inr ⟨L, ht⟩⟩, ?_⟩
    · intro t htlt
      dsimp only
      unfold hup
      split
      · rename_i h1
        subst h1
        exact ⟨rfl, rfl, rfl⟩
      · exact hasFlagsEq_refl _
    · intro L' r'' hL' ht'
      injection hL' with hL'
      subst hL'
      rw [ht] at ht'
      injection ht' with ht'
      subst ht'
      rfl

theorem shiftLoop_master (p : Params) (g : GridSys) (c : ℚ × ℚ)
    (hInv : gridInv p g = true) :
    ∀ (l : List (ℤ × ℤ)) (acc : ShiftAcc),
      (∀ xy ∈ l, xy ∈ gridPairs p.num_blocks) →
      (l.map (scaledKey p)).Nodup →
      (∀ xy ∈ l, dictLookup acc.newTracker (scaledKey p xy) = none) →
      (∀ kv ∈ acc.newTracker, kv.2 < acc.fresh) →
      g.fresh ≤ acc.fresh →
      ∃ acc', shiftLoop p g c l acc = some acc' ∧
        acc.fresh ≤ acc'.fresh ∧
        (∀ t, t < acc.fresh → hasFlagsEq (acc'.heap t) (acc.heap t)) ∧
        (∀ K, (∀ xy ∈ l, scaledKey p xy ≠ K) →
          dictLookup acc'.newTracker K = dictLookup acc.newTracker K) ∧
        (∀ xy ∈ l, (dictLookup acc'.newTracker (scaledKey p xy)).isSome) ∧
        (∀ xy ∈ l, ∀ L r,
          dictLookup g.map_grid_block2coords (worldKey p c xy) = some L →
          dictLookup g.block_grid_tracker L = some r →
          dictLookup acc'.newTracker (scaledKey p xy) = some r) ∧
        acc'.newTracker.length = acc.newTracker.length + l.length ∧
        (∀ kv ∈ acc'.newTracker, kv.2 < acc'.fresh) ∧
        (∀ kv ∈ acc'.newMap, kv ∈ acc.newMap ∨ ∃ xy ∈ l, kv.2 = scaledKey p xy) := by
  intro l
  induction l with
  | nil =>
    intro acc _ _ _ hbound hfresh
    refine ⟨acc, rfl, le_refl _, fun t _ => hasFlagsEq_refl _, fun K _ => rfl,
      by simp, by simp, by simp, hbound, fun kv hkv => Or.inl hkv⟩
  | cons a t ih =>
    intro acc hsub hnd hnone hbound hfresh
    obtain ⟨acc₁, hstep, hf1, hflags1, hmap1, ⟨r, htr1, hr⟩, huniq⟩ :=
      shiftStep_success p g c acc a hInv (hsub a (List.mem_cons_self _ _))
    have hnotin : scaledKey p a ∉ t.map (scaledKey p) := by
      rw [List.map_cons, List.nodup_cons] at hnd
      exact hnd.1
    have hnd' : (t.map (scaledKey p)).Nodup := by
      rw [List.map_cons, List.nodup_cons] at hnd
      exact hnd.2
    have hne : ∀ xy ∈ t, scaledKey p xy ≠ scaledKey p a := by
      intro xy hxy he
      exact hnotin (he ▸ List.mem_map_of_mem _ hxy)
    have hnone1 : ∀ xy ∈ t, dictLookup acc₁.newTracker (scaledKey p xy) = none := by
      intro xy hxy
      rw [htr1, dictLookup_dictInsert, if_neg (hne xy hxy)]
      exact hnone xy (List.mem_cons_of_mem _ hxy)
    have hbound1 : ∀ kv ∈ acc₁.newTracker, kv.2 < acc₁.fresh := by
      intro kv hkv
      rw [htr1] at hkv
      rcases dictInsert_mem hkv with h | h
      · rcases hr with ⟨hra, hfa⟩ | ⟨L, hL⟩
        · rw [h, hra, hfa]
          simp
        · have := gridInv_spec hInv
          have := this.1 (L, r) (dictLookup_mem hL)
          simp only [h]
          dsimp only at this ⊢
          omega
      · have := hbound kv h
        omega
    obtain ⟨acc', hloop, hf2, hflags2, hother2, hsome2, hcarry2, hlen2, hbound2, hmapv2⟩ :=
      ih acc₁ (fun xy hxy => hsub xy (List.mem_cons_of_mem _ hxy)) hnd' hnone1 hbound1
        (le_trans hfresh hf1)
    have hlook_a : dictLookup acc'.newTracker (scaledKey p a) =
        dictLookup acc₁.newTracker (scaledKey p a) := hother2 _ hne
    refine ⟨acc', ?_, le_trans hf1 hf2, ?_, ?_, ?_, ?_, ?_, hbound2, ?_⟩
    · unfold shiftLoop
      rw [hstep]
      exact hloop
    · intro s hs
      exact hasFlagsEq_trans (hflags2 s (lt_of_lt_of_le hs hf1)) (hflags1 s hs)
    · intro K hK
      rw [hother2 K (fun xy hxy => hK xy (List.mem_cons_of_mem _ hxy)), htr1,
        dictLookup_dictInsert,
        if_neg (fun he => hK a (List.mem_cons_self _ _) he.symm)]
    · intro xy hxy
      rcases List.mem_cons.mp hxy with rfl | hxy'
      · rw [hlook_a, htr1, dictLookup_dictInsert, if_pos rfl]
        rfl
      · exact hsome2 xy hxy'
    · intro xy hxy L r' hL ht'
      rcases List.mem_cons.mp hxy with rfl | hxy'
      · rw [hlook_a, huniq L r' hL ht', dictLookup_dictInsert, if_pos rfl]
      · exact hcarry2 xy hxy' L r' hL ht'
    · rw [hlen2, htr1, dictInsert_length, hnone a (List.mem_cons_self _ _)]
      simp only [Option.isSome_none, Bool.false_eq_true, if_false, List.length_cons]
      omega
    · intro kv hkv
      rcases hmapv2 kv hkv with h | ⟨xy, hxy, he⟩
      · rw [hmap1] at h
        rcases dictInsert_mem h with h' | h'
        · exact Or.inr ⟨a, List.mem_cons_self _ _, by rw [h']⟩
        · exact Or.inl h'
      · exact Or.inr ⟨xy, List.mem_cons_of_mem _ hxy, he⟩

/-- Master lemma for `shift_block_grid`: under the reachability invariant it succeeds,
re-establishes the invariant, keeps exactly one tracker entry per grid offset, transfers
carried state objects by reference, and never touches the `has_*` flags of live state
objects. -/
theorem shift_block_grid_master (p : Params) (g : GridSys) (c : ℚ × ℚ)
    (hInv : gridInv p g = true) (hbs : p.block_size ≠ 0) :
    ∃ g', shift_block_grid p g c = some g' ∧
      gridInv p g' = true ∧
      g'.block_grid_tracker.length = (2 * p.num_blocks + 3) ^ 2 ∧
      (∀ t, t < g.fresh → hasFlagsEq (g'.heap t) (g.heap t)) ∧
      (∀ xy ∈ gridPairs p.num_blocks, ∀ L r,
        dictLookup g.map_grid_block2coords (worldKey p c xy) = some L →
        dictLookup g.block_grid_tracker L = some r →
        dictLookup g'.block_grid_tracker (scaledKey p xy) = some r) ∧
      ∀ xy ∈ gridPairs p.num_blocks,
        (dictLookup g'.block_grid_tracker (scaledKey p xy)).isSome := by
  obtain ⟨acc', hloop, hf, hflags, hother, hsome, hcarry, hlen, hbound, hmapv⟩ :=
    shiftLoop_master p g c hInv (gridPairs p.num_blocks)
      { newTracker := [], newMap := [], heap := g.heap, fresh := g.fresh }
      (fun xy hxy => hxy) (gridPairs_scaled_nodup p hbs) (by simp) (by simp) (le_refl _)
  refine ⟨⟨acc'.heap, acc'.fresh, acc'.newTracker, acc'.newMap⟩,
    ?_, ?_, ?_, hflags, hcarry, hsome⟩
  · unfold shift_block_grid
    rw [hloop]
  · refine gridInv_of_spec hbound hsome ?_
    intro kv hkv
    rcases hmapv kv hkv with h | ⟨xy, hxy, he⟩
    · simp at h
    · rw [he]
      exact hsome xy hxy
  · rw [hlen]
    simp [gridPairs_length]

/-- Claim C2: any tile whose world anchor was tracked before a shift and survives into
the new window keeps its `has_crater_metadata`, `has_crater_data` and `has_terrain_data`
flag values bit-for-bit: the new tracker holds the very same state object (heap
reference), and the shift loop mutates only `is_padding` on live objects. -/
theorem claim_C2 (p : Params) (g : GridSys) (c : ℚ × ℚ) (xy : ℤ × ℤ) (L : ℚ × ℚ) (r : ℕ)
    (hInv : gridInv p g = true) (hbs : p.block_size ≠ 0)
    (hmem : xy ∈ gridPairs p.num_blocks)
    (hw : dictLookup g.map_grid_block2coords (worldKey p c xy) = some L)
    (ht : dictLookup g.block_grid_tracker L = some r) :
    ∃ g', shift_block_grid p g c = some g' ∧
      dictLookup g'.block_grid_tracker (scaledKey p xy) = some r ∧
      (g'.heap r).has_crater_metadata = (g.heap r).has_crater_metadata ∧
      (g'.heap r).has_crater_data = (g.heap r).has_crater_data ∧
      (g'.heap r).has_terrain_data = (g.heap r).has_terrain_data := by
  obtain ⟨g', hshift, hInv', hlen, hflags, hcarry, hsome⟩ :=
    shift_block_grid_master p g c hInv hbs
  have hrlt : r < g.fresh := (gridInv_spec hInv).1 (L, r) (dictLookup_mem ht)
  obtain ⟨h1, h2, h3⟩ := hflags r hrlt
  exact ⟨g', hshift, hcarry xy hmem L r hw ht, h1, h2, h3⟩

/-- Witness for C2 on the `3 × 3` grid: anchor `(0,0)` (old local `(0,0)`, reference 4)
survives the shift to center `(1,0)` at new local offset `(-1, 0)`. -/
theorem claim_C2_witness :
    gridInv pT (build_block_grid pT (0, 0)) = true ∧ pT.block_size ≠ 0 ∧
      ((-1, 0) : ℤ × ℤ) ∈ gridPairs pT.num_blocks ∧
      dictLookup (build_block_grid pT (0, 0)).map_grid_block2coords
        (worldKey pT (1, 0) (-1, 0)) = some ((0 : ℚ), (0 : ℚ)) ∧
      dictLookup (build_block_grid pT (0, 0)).block_grid_tracker ((0 : ℚ), (0 : ℚ)) =
        some 4 ∧
      ∃ g', shift_block_grid pT (build_block_grid pT (0, 0)) (1, 0) = some g' ∧
        dictLookup g'.block_grid_tracker (scaledKey pT (-1, 0)) = some 4 ∧
        (g'.heap 4).has_crater_metadata =
          ((build_block_grid pT (0, 0)).heap 4).has_crater_metadata ∧
        (g'.heap 4).has_crater_data =
          ((build_block_grid pT (0, 0)).heap 4).has_crater_data ∧
        (g'.heap 4).has_terrain_data =
          ((build_block_grid pT (0, 0)).heap 4).has_terrain_data := by
  have hw : dictLookup (build_block_grid pT (0, 0)).map_grid_block2coords
      (worldKey pT (1, 0) (-1, 0)) = some ((0 : ℚ), (0 : ℚ)) := by
    norm_num [build_block_grid, gridPairs, gridRange, List.range_succ, buildStep,
      dictInsert, dictLookup, hup, freshState, isPaddingIdx, Prod.ext_iff, pT, worldKey]
  have ht : dictLookup (build_block_grid pT (0, 0)).block_grid_tracker
      ((0 : ℚ), (0 : ℚ)) = some 4 := by
    norm_num [build_block_grid, gridPairs, gridRange, List.range_succ, buildStep,
      dictInsert, dictLookup, hup, freshState, isPaddingIdx, Prod.ext_iff, pT]
  exact ⟨build_gridInv pT (0, 0) (by norm_num [pT]), by norm_num [pT], by decide, hw, ht,
    claim_C2 pT (build_block_grid pT (0, 0)) (1, 0) (-1, 0) ((0 : ℚ), (0 : ℚ)) 4
      (build_gridInv pT (0, 0) (by norm_num [pT])) (by norm_num [pT]) (by decide) hw ht⟩

/-- Claim C7: `build_block_grid` creates exactly `(2·num_blocks + 3)²` local→state
entries — one per local offset with both coordinates in `[−(num_blocks+1), num_blocks+1]`
— and every `shift_block_grid` from an invariant-satisfying state again yields exactly
`(2·num_blocks + 3)²` entries covering every local offset. -/
theorem claim_C7 (p : Params) (c : ℚ × ℚ) (hbs : p.block_size ≠ 0) :
    ((build_block_grid p c).block_grid_tracker.length = (2 * p.num_blocks + 3) ^ 2 ∧
      ∀ xy ∈ gridPairs p.num_blocks,
        (dictLookup (build_block_grid p c).block_grid_tracker (scaledKey p xy)).isSome) ∧
    ∀ g c', gridInv p g = true →
      ∃ g', shift_block_grid p g c' = some g' ∧
        g'.block_grid_tracker.length = (2 * p.num_blocks + 3) ^ 2 ∧
        ∀ xy ∈ gridPairs p.num_blocks,
          (dictLookup g'.block_grid_tracker (scaledKey p xy)).isSome := by
  constructor
  · exact ⟨build_tracker_length p c hbs, ((gridInv_spec (build_gridInv p c hbs)).2.1)⟩
  · intro g c' hInv
    obtain ⟨g', hshift, hInv', hlen, _, _, hsome⟩ := shift_block_grid_master p g c' hInv hbs
    exact ⟨g', hshift, hlen, hsome⟩

/-- Witness for C7 on the `3 × 3` grid (`(2·0+3)² = 9` entries before and after a shift). -/
theorem claim_C7_witness :
    pT.block_size ≠ 0 ∧
      (((build_block_grid pT (0, 0)).block_grid_tracker.length =
          (2 * pT.num_blocks + 3) ^ 2 ∧
        ∀ xy ∈ gridPairs pT.num_blocks,
          (dictLookup (build_block_grid pT (0, 0)).block_grid_tracker
            (scaledKey pT xy)).isSome) ∧
      ∀ g c', gridInv pT g = true →
        ∃ g', shift_block_grid pT g c' = some g' ∧
          g'.block_grid_tracker.length = (2 * pT.num_blocks + 3) ^ 2 ∧
          ∀ xy ∈ gridPairs pT.num_blocks,
            (dictLookup g'.block_grid_tracker (scaledKey pT xy)).isSome) :=
  ⟨by norm_num [pT], claim_C7 pT (0, 0) (by norm_num [pT])⟩

/-! ### Flag monotonicity of metadata regeneration and collect -/

theorem genMetaLoop_mono (ex : ℚ × ℚ → Bool) (g : GridSys) :
    ∀ (l : List ((ℚ × ℚ) × (ℚ × ℚ))) (hp h' : ℕ → BlockState),
      genMetaLoop ex g l hp = some h' → (∀ kv ∈ l, ex kv.1 = true) →
      ∀ r, ((hp r).has_crater_metadata = true → (h' r).has_crater_metadata = true) ∧
        (h' r).has_crater_data = (hp r).has_crater_data ∧
        (h' r).has_terrain_data = (hp r).has_terrain_data := by
  intro l
  induction l with
  | nil =>
    intro hp h' hloop _
    injection hloop with hloop
    subst hloop
    exact fun r => ⟨fun h => h, rfl, rfl⟩
  | cons kv t ih =>
    intro hp h' hloop hex
    unfold genMetaLoop at hloop
    cases hstep : genMetaStep ex g hp kv with
    | none => rw [hstep] at hloop; exact absurd hloop (by simp)
    | some hp1 =>
      rw [hstep] at hloop
      unfold genMetaStep at hstep
      have hnext := ih hp1 h' hloop (fun z hz => hex z (List.mem_cons_of_mem _ hz))
      cases hm : dictLookup g.map_grid_block2coords kv.1 with
      | none => rw [hm] at hstep; exact absurd hstep (by simp)
      | some lc =>
        rw [hm] at hstep
        dsimp only at hstep
        cases htr : dictLookup g.block_grid_tracker lc with
        | none => rw [htr] at hstep; exact absurd hstep (by simp)
        | some r0 =>
          rw [htr] at hstep
          dsimp only at hstep
          injection hstep with hstep
          subst hstep
          intro r
          obtain ⟨m1, m2, m3⟩ := hnext r
          refine ⟨fun _ => ?_, ?_, ?_⟩
          · apply m1
            unfold hup
            split
            · exact hex kv (List.mem_cons_self _ _)
            · assumption
          · rw [m2]
            unfold hup
            split
            · rename_i h0
              subst h0
              rfl
            · rfl
          · rw [m3]
            unfold hup
            split
            · rename_i h0
              subst h0
              rfl
            · rfl

theorem collectLoop_crater_mono (p : Params) :
    ∀ (l : List ((ℚ × ℚ) × (ℕ → ℕ → ℚ))) (st st' : GridSys × (ℕ → ℕ → ℚ)),
      collectLoop (collect_crater_step p) l st = some st' →
      ∀ r, (st'.1.heap r).has_crater_metadata = (st.1.heap r).has_crater_metadata ∧
        ((st.1.heap r).has_crater_data = true → (st'.1.heap r).has_crater_data = true) ∧
        (st'.1.heap r).has_terrain_data = (st.1.heap r).has_terrain_data := by
  intro l
  induction l with
  | nil =>
    intro st st' hloop
    injection hloop with hloop
    subst hloop
    exact fun r => ⟨rfl, fun h => h, rfl⟩
  | cons res t ih =>
    intro st st' hloop
    unfold collectLoop at hloop
    cases hstep : collect_crater_step p st res with
    | none => rw [hstep] at hloop; exact absurd hloop (by simp)
    | some st1 =>
      rw [hstep] at hloop
      have hnext := ih st1 st' hloop
      unfold collect_crater_step at hstep
      cases hm : dictLookup st.1.map_grid_block2coords res.1 with
      | none => rw [hm] at hstep; exact absurd hstep (by simp)
      | some lc =>
        rw [hm] at hstep
        dsimp only at hstep
        cases htr : dictLookup st.1.block_grid_tracker lc with
        | none => rw [htr] at hstep; exact absurd hstep (by simp)
        | some r0 =>
          rw [htr] at hstep
          dsimp only at hstep
          injection hstep with hstep
          subst hstep
          intro r
          obtain ⟨m1, m2, m3⟩ := hnext r
          dsimp only at m1 m2 m3
          refine ⟨?_, fun _ => ?_, ?_⟩
          · rw [m1]
            unfold hup
            split
            · rename_i h0
              subst h0
              rfl
            · rfl
          · apply m2
            unfold hup
            split
            · rfl
            · assumption
          · rw [m3]
            unfold hup
            split
            · rename_i h0
              subst h0
              rfl
            · rfl

theorem collectLoop_terrain_mono (p : Params) :
    ∀ (l : List ((ℚ × ℚ) × (ℕ → ℕ → ℚ))) (st st' : GridSys × (ℕ → ℕ → ℚ)),
      collectLoop (collect_terrain_step p) l st = some st' →
      ∀ r, (st'.1.heap r).has_crater_metadata = (st.1.heap r).has_crater_metadata ∧
        (st'.1.heap r).has_crater_data = (st.1.heap r).has_crater_data ∧
        ((st.1.heap r).has_terrain_data = true → (st'.1.heap r).has_terrain_data = true) := by
  intro l
  induction l with
  | nil =>
    intro st st' hloop
    injection hloop with hloop
    subst hloop
    exact fun r => ⟨rfl, rfl, fun h => h⟩
  | cons res t ih =>
    intro st st' hloop
    unfold collectLoop at hloop
    cases hstep : collect_terrain_step p st res with
    | none => rw [hstep] at hloop; exact absurd hloop (by simp)
    | some st1 =>
      rw [hstep] at hloop
      have hnext := ih st1 st' hloop
      unfold collect_terrain_step at hstep
      cases hm : dictLookup st.1.map_grid_block2coords res.1 with
      | none => rw [hm] at hstep; exact absurd hstep (by simp)
      | some lc =>
        rw [hm] at hstep
        dsimp only at hstep
        cases htr : dictLookup st.1.block_grid_tracker lc with
        | none => rw [htr] at hstep; exact absurd hstep (by simp)
        | some r0 =>
          rw [htr] at hstep
          dsimp only at hstep
          injection hstep with hstep
          subst hstep
          intro r
          obtain ⟨m1, m2, m3⟩ := hnext r
          dsimp only at m1 m2 m3
          refine ⟨?_, ?_, fun _ => ?_⟩
          · rw [m1]
            unfold hup
            split
            · rename_i h0
              subst h0
              rfl
            · rfl
          · rw [m2]
            unfold hup
            split
            · rename_i h0
              subst h0
              rfl
            · rfl
          · apply m3
            unfold hup
            split
            · rfl
            · assumption

/-- Claim C6: within a tile's lifetime (its state object stays referenced while its
anchor remains in the window — claim C2's carry), none of `has_crater_metadata`,
`has_crater_data`, `has_terrain_data` ever falls from true to false under a shift, a
crater-metadata regeneration, or a collect.  For the regeneration, the crater database
is the external collaborator of spec section 6: `sample_craters_by_region` ensures
metadata exists for every anchor in the sampled bounding box (a superset of the
window), so `check_block_exists` (`ex`) returns true on every tracked anchor. -/
theorem claim_C6 (p : Params) (g : GridSys) (hInv : gridInv p g = true)
    (hbs : p.block_size ≠ 0) :
    (∀ c, ∃ g', shift_block_grid p g c = some g' ∧
      ∀ L r, dictLookup g.block_grid_tracker L = some r →
        ((g.heap r).has_crater_metadata = true → (g'.heap r).has_crater_metadata = true) ∧
        ((g.heap r).has_crater_data = true → (g'.heap r).has_crater_data = true) ∧
        ((g.heap r).has_terrain_data = true → (g'.heap r).has_terrain_data = true)) ∧
    (∀ ex g', (∀ kv ∈ g.map_grid_block2coords, ex kv.1 = true) →
      generate_craters_metadata ex g = some g' →
      ∀ r, ((g.heap r).has_crater_metadata = true → (g'.heap r).has_crater_metadata = true) ∧
        ((g.heap r).has_crater_data = true → (g'.heap r).has_crater_data = true) ∧
        ((g.heap r).has_terrain_data = true → (g'.heap r).has_terrain_data = true)) ∧
    ∀ raster cr tr out, collect_terrain_data p g raster cr tr = some out →
      ∀ r, ((g.heap r).has_crater_metadata = true → (out.1.heap r).has_crater_metadata = true) ∧
        ((g.heap r).has_crater_data = true → (out.1.heap r).has_crater_data = true) ∧
        ((g.heap r).has_terrain_data = true → (out.1.heap r).has_terrain_data = true) := by
  refine ⟨?_, ?_, ?_⟩
  · intro c
    obtain ⟨g', hshift, _, _, hflags, _, _⟩ := shift_block_grid_master p g c hInv hbs
    refine ⟨g', hshift, ?_⟩
    intro L r ht
    have hrlt : r < g.fresh := (gridInv_spec hInv).1 (L, r) (dictLookup_mem ht)
    obtain ⟨h1, h2, h3⟩ := hflags r hrlt
    exact ⟨fun h => h1.trans h, fun h => h2.trans h, fun h => h3.trans h⟩
  · intro ex g' hex hgen
    unfold generate_craters_metadata at hgen
    cases hloop : genMetaLoop ex g g.map_grid_block2coords g.heap with
    | none => rw [hloop] at hgen; exact absurd hgen (by simp)
    | some h' =>
      rw [hloop] at hgen
      injection hgen with hgen
      subst hgen
      intro r
      obtain ⟨m1, m2, m3⟩ := genMetaLoop_mono ex g g.map_grid_block2coords g.heap h'
        hloop hex r
      exact ⟨m1, fun h => m2.trans h, fun h => m3.trans h⟩
  · intro raster cr tr out hcol
    unfold collect_terrain_data at hcol
    cases hc : collectLoop (collect_crater_step p) cr (g, raster) with
    | none => rw [hc] at hcol; exact absurd hcol (by simp)
    | some st1 =>
      rw [hc] at hcol
      dsimp only at hcol
      intro r
      obtain ⟨c1, c2, c3⟩ := collectLoop_crater_mono p cr (g, raster) st1 hc r
      obtain ⟨t1, t2, t3⟩ := collectLoop_terrain_mono p tr st1 out hcol r
      refine ⟨fun h => ?_, fun h => ?_, fun h => ?_⟩
      · rw [t1, c1]
        exact h
      · rw [t2]
        exact c2 h
      · exact t3 (by rw [c3]; exact h)

/-- Witness for C6 on the `3 × 3` grid built at the origin. -/
theorem claim_C6_witness :
    gridInv pT (build_block_grid pT (0, 0)) = true ∧ pT.block_size ≠ 0 ∧
      ((∀ c, ∃ g', shift_block_grid pT (build_block_grid pT (0, 0)) c = some g' ∧
        ∀ L r, dictLookup (build_block_grid pT (0, 0)).block_grid_tracker L = some r →
          (((build_block_grid pT (0, 0)).heap r).has_crater_metadata = true →
            (g'.heap r).has_crater_metadata = true) ∧
          (((build_block_grid pT (0, 0)).heap r).has_crater_data = true →
            (g'.heap r).has_crater_data = true) ∧
          (((build_block_grid pT (0, 0)).heap r).has_terrain_data = true →
            (g'.heap r).has_terrain_data = true)) ∧
      (∀ ex g', (∀ kv ∈ (build_block_grid pT (0, 0)).map_grid_block2coords,
          ex kv.1 = true) →
        generate_craters_metadata ex (build_block_grid pT (0, 0)) = some g' →
        ∀ r, (((build_block_grid pT (0, 0)).heap r).has_crater_metadata = true →
            (g'.heap r).has_crater_metadata = true) ∧
          (((build_block_grid pT (0, 0)).heap r).has_crater_data = true →
            (g'.heap r).has_crater_data = true) ∧
          (((build_block_grid pT (0, 0)).heap r).has_terrain_data = true →
            (g'.heap r).has_terrain_data = true)) ∧
      ∀ raster cr tr out,
        collect_terrain_data pT (build_block_grid pT (0, 0)) raster cr tr = some out →
        ∀ r, (((build_block_grid pT (0, 0)).heap r).has_crater_metadata = true →
            (out.1.heap r).has_crater_metadata = true) ∧
          (((build_block_grid pT (0, 0)).heap r).has_crater_data = true →
            (out.1.heap r).has_crater_data = true) ∧
          (((build_block_grid pT (0, 0)).heap r).has_terrain_data = true →
            (out.1.heap r).has_terrain_data = true)) :=
  ⟨build_gridInv pT (0, 0) (by norm_num [pT]), by norm_num [pT],
    claim_C6 pT (build_block_grid pT (0, 0))
      (build_gridInv pT (0, 0) (by norm_num [pT])) (by norm_num [pT])⟩
